import Mathlib

/-!
# BLS public-key text codec and the chain-state utility

A shallow embedding of

* `libraries/libfc/src/crypto/bls_public_key.cpp`: `pub_parse_base58`, the
  `bls_public_key(std::string)` constructor, `bls_public_key::to_string`,
  `to_variant` and `from_variant`;
* `programs/leap-util/actions/chain.cpp`: `get_state_dir`,
  `run_subcommand_sstate` and `run_subcommand_replace_producer_keys`.

A `std::string` is the list of its characters.  A C++ exception is an
`Except.error`.  Functions that live outside these files (base58 with
checksum, G1 point compression, the file system, the chain controller) are
parameters of the definitions that call them.
-/

namespace fc

/-- A `std::string`, as the sequence of its characters. -/
abbrev string := List Char

/-- The `std::array<uint8_t, 48>` holding a compressed G1 element. -/
abbrev bytes48 := { l : List (Fin 256) // l.length = 48 }

/-- The exceptions that can leave `pub_parse_base58`, one per place that throws. -/
inductive parse_failure where
  /-- `FC_ASSERT(pivot != std::string::npos, ...)`, line 12 -/
  | no_delimiter
  /-- `FC_ASSERT(config::bls_public_key_base_prefix == base_prefix_str, ...)`, line 15 -/
  | base_prefix_mismatch
  /-- `FC_ASSERT(config::bls_public_key_prefix == prefix_str, ...)`, line 18 -/
  | type_prefix_mismatch
  /-- `std::out_of_range`, thrown by `std::string::substr` when `pos > size()` -/
  | out_of_range
  /-- Any exception thrown inside `serialize_base58`, line 22 -/
  | base58_rejected
  /-- `FC_ASSERT(g1)`, line 25 -/
  | g1_rejected
  deriving DecidableEq, Repr

/-- `std::string::find(char)`: the index of the first occurrence, `none` for `npos`. -/
def find : string → Char → Option Nat
  | [], _ => none
  | x :: xs, c => if x = c then some 0 else (find xs c).map (· + 1)

/-- `std::string::substr(pos, count)`: throws `std::out_of_range` when
`pos > size()`, otherwise the characters `[pos, pos + min(count, size() - pos))`.
A `count` of `none` is the default `npos`. -/
def substr (s : string) (pos : Nat) (count : Option Nat) : Except parse_failure string :=
  if pos > s.length then Except.error parse_failure.out_of_range
  else
    match count with
    | none => Except.ok (s.drop pos)
    | some n => Except.ok ((s.drop pos).take n)

namespace config

/-- Modelled from the spec: the constant `config::bls_public_key_base_prefix` is
declared in a header outside the sources at hand; the text format fixes
`ROLE_PREFIX = "PUB"`. -/
def bls_public_key_base_prefix : string := ['P', 'U', 'B']

/-- Modelled from the spec: the constant `config::bls_public_key_prefix` is
declared in a header outside the sources at hand; the text format fixes
`TYPE_TAG = "BLS"`. -/
def bls_public_key_prefix : string := ['B', 'L', 'S']

end config

/-- The function `pub_parse_base58` of `bls_public_key.cpp`.  The two library
calls, `serialize_base58<std::array<uint8_t, 48>>` (base58 text to bytes, checksum
verified; `none` when it throws) and `bls12_381::g1::fromCompressedBytesBE`, are
parameters. -/
def pub_parse_base58 {G1 : Type}
    (serialize_base58 : string → Option bytes48)
    (fromCompressedBytesBE : bytes48 → Option G1)
    (base58str : string) : Except parse_failure G1 :=
  match find base58str '_' with
  | none => Except.error parse_failure.no_delimiter
  | some pivot =>
    match substr base58str 0 (some 3) with
    | Except.error e => Except.error e
    | Except.ok base_prefix_str =>
      if config.bls_public_key_base_prefix ≠ base_prefix_str then
        Except.error parse_failure.base_prefix_mismatch
      else
        match substr base58str (pivot + 1) (some 3) with
        | Except.error e => Except.error e
        | Except.ok prefix_str =>
          if config.bls_public_key_prefix ≠ prefix_str then
            Except.error parse_failure.type_prefix_mismatch
          else
            match substr base58str 8 none with
            | Except.error e => Except.error e
            | Except.ok data_str =>
              match serialize_base58 data_str with
              | none => Except.error parse_failure.base58_rejected
              | some bytes =>
                match fromCompressedBytesBE bytes with
                | none => Except.error parse_failure.g1_rejected
                | some g1 => Except.ok g1

/-- The class `bls_public_key`: its one data member is the G1 point. -/
structure bls_public_key (G1 : Type) where
  /-- The G1 point. -/
  _pkey : G1
  deriving DecidableEq, Repr

/-- The constructor `bls_public_key::bls_public_key(const std::string&)`. -/
def bls_public_key.from_string {G1 : Type}
    (serialize_base58 : string → Option bytes48)
    (fromCompressedBytesBE : bytes48 → Option G1)
    (base58str : string) : Except parse_failure (bls_public_key G1) :=
  match pub_parse_base58 serialize_base58 fromCompressedBytesBE base58str with
  | Except.error e => Except.error e
  | Except.ok g1 => Except.ok ⟨g1⟩

/-- The method `bls_public_key::to_string`.  The library calls
`g1::toCompressedBytesBE` and `deserialize_base58<std::array<uint8_t, 48>>`
(bytes to base58 text with checksum) are parameters. -/
def bls_public_key.to_string {G1 : Type}
    (toCompressedBytesBE : G1 → bytes48)
    (deserialize_base58 : bytes48 → string)
    (k : bls_public_key G1) : string :=
  let bytes := toCompressedBytesBE k._pkey
  let data_str := deserialize_base58 bytes
  config.bls_public_key_base_prefix ++ ['_'] ++ config.bls_public_key_prefix ++ ['_'] ++ data_str

/-- An `fc::variant`, as far as the bridge uses it: the string alternative, and
the null value a default-constructed variant holds. -/
inductive variant where
  | null_type
  | string_type (s : string)
  deriving DecidableEq, Repr

/-- `variant::as_string` on the two alternatives above. -/
def variant.as_string : variant → string
  | variant.null_type => []
  | variant.string_type s => s

/-- The bridge function `to_variant`: `vo = var.to_string(yield)`. -/
def to_variant {G1 : Type}
    (toCompressedBytesBE : G1 → bytes48)
    (deserialize_base58 : bytes48 → string)
    (var : bls_public_key G1) : variant :=
  variant.string_type (bls_public_key.to_string toCompressedBytesBE deserialize_base58 var)

/-- The bridge function `from_variant`: `vo = bls_public_key(var.as_string())`. -/
def from_variant {G1 : Type}
    (serialize_base58 : string → Option bytes48)
    (fromCompressedBytesBE : bytes48 → Option G1)
    (var : variant) : Except parse_failure (bls_public_key G1) :=
  bls_public_key.from_string serialize_base58 fromCompressedBytesBE var.as_string

/-- Cutting a text at its first delimiter into the part before it and the part
after it; `none` when it has no delimiter.  The code has no such function (it
works with fixed offsets); this one follows the wording of Decode step 2 in
section 4.4 of the specification and serves to compare the two. -/
def split_delimiter : string → Option (string × string)
  | [] => none
  | c :: cs =>
    if c = '_' then some ([], cs)
    else (split_delimiter cs).map (fun p => (c :: p.1, p.2))

/-- Specification wording (section 4.4, Decode step 2): "split on the first two
delimiter occurrences into `base_prefix`, `type_tag`, `remainder`"; `none` when
fewer than two delimiters are present. -/
def split_first_two (s : string) : Option (string × string × string) :=
  match split_delimiter s with
  | none => none
  | some ( base_prefix, rest) =>
    match split_delimiter rest with
    | none => none
    | some (type_tag, remainder) => some ( base_prefix, type_tag, remainder)

/-! ### A small instance of the collaborators

A stand-in for base58 that writes byte `x` as the character with code
`x + 256` (so its text never holds the delimiter), and a stand-in curve whose
points are the 48-byte arrays themselves. -/

namespace sample

/-- One byte as one character. -/
def encode_char (x : Fin 256) : Char := Char.ofNat (x.val + 256)

/-- The byte a character stands for, if any. -/
def decode_char (c : Char) : Option (Fin 256) :=
  if h : 256 ≤ c.toNat ∧ c.toNat < 512 then some ⟨c.toNat - 256, by omega⟩ else none

/-- The bytes a text stands for, if every character stands for one. -/
def decode : string → Option (List (Fin 256))
  | [] => some []
  | c :: cs =>
    match decode_char c, decode cs with
    | some x, some xs => some (x :: xs)
    | _, _ => none

/-- Stand-in for `deserialize_base58`. -/
def deserialize_base58 (b : bytes48) : string := b.val.map encode_char

/-- Stand-in for `serialize_base58`. -/
def serialize_base58 (s : string) : Option bytes48 :=
  match decode s with
  | none => none
  | some l => if h : l.length = 48 then some ⟨l, h⟩ else none

/-- Stand-in for `g1::toCompressedBytesBE`. -/
def toCompressedBytesBE (v : bytes48) : bytes48 := v

/-- Stand-in for `g1::fromCompressedBytesBE`. -/
def fromCompressedBytesBE (b : bytes48) : Option bytes48 := some b

/-- The array of 48 zero bytes. -/
def zero48 : bytes48 := ⟨List.replicate 48 0, by simp⟩

end sample

end fc

/-! ## `programs/leap-util/actions/chain.cpp` -/

namespace chain_actions

/-- The options record `chain_options`, with the members `chain.cpp` reads. -/
structure chain_options where
  build_just_print : Bool
  build_output_file : String
  sstate_state_dir : String
  blocks_dir : String
  producer_key : String
  db_size_mb : Nat

/-- The exceptions that calls made by `chain.cpp` can throw, by the `catch` clause
of `run_subcommand_replace_producer_keys` that takes them. -/
inductive thrown where
  /-- A `database_guard_exception` (a kind of `fc::exception`). -/
  | database_guard_exception
  /-- Any other `fc::exception`. -/
  | fc_exception
  /-- A `std::exception`, such as a `std::filesystem::filesystem_error`. -/
  | std_exception
  /-- An exception that none of the three `catch` clauses takes. -/
  | other
  deriving DecidableEq, Repr

/-- The file-system calls `chain.cpp` makes, over a type `path` of
`std::filesystem::path` values. -/
structure filesystem (path : Type) where
  /-- Conversion of a `std::string` to a path. -/
  of_string : String → path
  /-- The path `operator/`. -/
  append : path → path → path
  /-- The method `path::is_relative`. -/
  is_relative : path → Bool
  /-- The value of `std::filesystem::current_path()`. -/
  current_path : path
  /-- The value of `fc::app_path()`. -/
  app_path : path
  /-- The call `std::filesystem::exists(p)`, the overload that throws:
  `Except.error` when it throws a `filesystem_error` (the status of the path
  cannot be read), `Except.ok b` when it returns `b`. -/
  file_exists : path → Except thrown Bool
  /-- Opening the file as a binary `std::ifstream` and reading `n` bytes into a
  buffer: `none` when the stream's fail bit is set afterwards. -/
  read : path → Nat → Option (List (Fin 256))

/-- The function template `get_state_dir`; `default_state_dir_name` is
`config::default_state_dir_name`. -/
def get_state_dir {path : Type} (fs : filesystem path) (default_state_dir_name : String)
    (opt : chain_options) : path :=
  if opt.sstate_state_dir.isEmpty then
    let root := fs.app_path
    let default_data_dir :=
      fs.append (fs.append (fs.append root (fs.of_string "eosio")) (fs.of_string "nodeos"))
        (fs.of_string "data")
    fs.append default_data_dir (fs.of_string default_state_dir_name)
  else
    let state_dir := fs.of_string opt.sstate_state_dir
    if fs.is_relative state_dir then fs.append fs.current_path state_dir else state_dir

/-- The fields of `chainbase::db_header` that `run_subcommand_sstate` reads. -/
structure db_header where
  id : Nat
  dirty : Bool

/-- The method `chain_actions::run_subcommand_sstate`: `Except.ok rc` when it
returns `rc`, `Except.error e` when the exception `e` leaves it (the function
has no `try` block; the console messages are left out).  `header_size` and
`header_id` are the chainbase constants; `as_db_header` is the
`reinterpret_cast` of the buffer to a `chainbase::db_header`. -/
def run_subcommand_sstate {path : Type} (fs : filesystem path) (default_state_dir_name : String)
    (header_size : Nat) (header_id : Nat) (as_db_header : List (Fin 256) → db_header)
    (opt : chain_options) : Except thrown Int :=
  let state_dir := get_state_dir fs default_state_dir_name opt
  let shared_mem_path := fs.append state_dir (fs.of_string "shared_memory.bin")
  match fs.file_exists shared_mem_path with
  | Except.error e => Except.error e
  | Except.ok found =>
    if !found then Except.ok (-1)
    else
      match fs.read shared_mem_path header_size with
      | none => Except.ok (-1)
      | some header =>
        let dbheader := as_db_header header
        if dbheader.id ≠ header_id then Except.ok (-1)
        else if dbheader.dirty then Except.ok (-1)
        else Except.ok 0

/-- The members of `controller::config` that the function sets. -/
structure controller_config (path : Type) where
  blocks_dir : path
  finalizers_dir : path
  state_dir : path
  state_size : Nat

/-- The calls `run_subcommand_replace_producer_keys` makes outside `chain.cpp`.
Each may throw; the controller's state is passed along explicitly. -/
structure chain_api (path key chain_id pfs control : Type) where
  /-- The constructor `public_key_type(std::string)`. -/
  public_key_type : String → Except thrown key
  /-- The constructor of `fc::temp_directory`, giving its path. -/
  temp_directory : Except thrown path
  initialize_protocol_features : path → Bool → Except thrown pfs
  extract_chain_id_from_db : path → Except thrown (Option chain_id)
  /-- The constructor `controller(cfg, pfs, chain_id)`. -/
  controller : controller_config path → pfs → chain_id → Except thrown control
  add_indices : control → Except thrown control
  startup : control → Except thrown control
  replace_producer_keys : control → key → Except thrown control
  /-- The call `replace_account_keys(config::system_account_name, config::active_name, key)`. -/
  replace_account_keys : control → key → Except thrown control

/-- The body of the `try` block of `run_subcommand_replace_producer_keys`:
`some rc` when it executes `return rc`, `none` when control reaches its end. -/
def replace_producer_keys_try {path key chain_id pfs control : Type}
    (api : chain_api path key chain_id pfs control) (opt : chain_options)
    (state_dir : path) (cfg : controller_config path) (pfs0 : pfs) (producer_key : key) :
    Except thrown (Option Int) := do
  let chain_id ← api.extract_chain_id_from_db state_dir
  match chain_id with
  | none => return some (-1)
  | some id =>
    let control ← api.controller cfg pfs0 id
    let control ← api.add_indices control
    let control ← api.startup control
    if !opt.producer_key.isEmpty then
      let control ← api.replace_producer_keys control producer_key
      let _ ← api.replace_account_keys control producer_key
      return none
    else
      return none

/-- The method `chain_actions::run_subcommand_replace_producer_keys`:
`Except.ok rc` when it returns `rc`, `Except.error e` when the exception `e`
leaves it (the console messages are left out). -/
def run_subcommand_replace_producer_keys {path key chain_id pfs control : Type}
    (fs : filesystem path) (api : chain_api path key chain_id pfs control)
    (default_state_dir_name : String) (opt : chain_options) : Except thrown Int :=
  let state_dir := get_state_dir fs default_state_dir_name opt
  let shared_mem_path := fs.append state_dir (fs.of_string "shared_memory.bin")
  match fs.file_exists shared_mem_path with
  | Except.error e => Except.error e
  | Except.ok found =>
    if !found then Except.ok (-1)
    else if opt.blocks_dir.isEmpty then Except.ok (-1)
    else
      match api.public_key_type opt.producer_key with
      | Except.error e => Except.error e
      | Except.ok producer_key =>
        match api.temp_directory with
        | Except.error e => Except.error e
        | Except.ok temp_dir =>
          let finalizers_dir := fs.append temp_dir (fs.of_string "finalizers")
          let cfg : controller_config path :=
            { blocks_dir := fs.of_string opt.blocks_dir
              finalizers_dir := finalizers_dir
              state_dir := state_dir
              state_size := (opt.db_size_mb * 1024 * 1024) % 2 ^ 64 }
          match api.initialize_protocol_features (fs.of_string "protocol_features") false with
          | Except.error e => Except.error e
          | Except.ok pfs0 =>
            match replace_producer_keys_try api opt state_dir cfg pfs0 producer_key with
            | Except.ok (some rc) => Except.ok rc
            | Except.ok none => Except.ok 0
            | Except.error thrown.database_guard_exception => Except.ok (-1)
            | Except.error thrown.fc_exception => Except.ok (-1)
            | Except.error thrown.std_exception => Except.ok (-1)
            | Except.error thrown.other => Except.error thrown.other

/-! ### A small instance of the collaborators

Paths are lists of names; the file systems differ in whether `exists` returns
or throws and in whether a read succeeds; the key constructor rejects every
text. -/

namespace sample

/-- A file system in which every path exists and no read succeeds. -/
def fs : filesystem (List String) where
  of_string := fun s => [s]
  append := fun p q => p ++ q
  is_relative := fun _ => false
  current_path := []
  app_path := []
  file_exists := fun _ => Except.ok true
  read := fun _ _ => none

/-- A file system in which every path exists and every read gives zero bytes. -/
def readable_fs : filesystem (List String) where
  of_string := fun s => [s]
  append := fun p q => p ++ q
  is_relative := fun _ => false
  current_path := []
  app_path := []
  file_exists := fun _ => Except.ok true
  read := fun _ n => some (List.replicate n 0)

/-- Collaborators whose key constructor throws an `fc::exception` on every text. -/
def api : chain_api (List String) Unit Unit Unit Unit where
  public_key_type := fun _ => Except.error thrown.fc_exception
  temp_directory := Except.ok ["tmp"]
  initialize_protocol_features := fun _ _ => Except.ok ()
  extract_chain_id_from_db := fun _ => Except.ok (some ())
  controller := fun _ _ _ => Except.ok ()
  add_indices := fun _ => Except.ok ()
  startup := fun _ => Except.ok ()
  replace_producer_keys := fun _ _ => Except.ok ()
  replace_account_keys := fun _ _ => Except.ok ()

/-- The options `--state-dir /data/state --blocks-dir blocks --key notakey`. -/
def opt : chain_options where
  build_just_print := false
  build_output_file := ""
  sstate_state_dir := "/data/state"
  blocks_dir := "blocks"
  producer_key := "notakey"
  db_size_mb := 1024

end sample

end chain_actions

/-! ## Properties of the key codec -/

namespace fc

/-- A position `find` returns lies inside the string. -/
theorem find_lt (s : string) (c : Char) (p : Nat) (h : find s c = some p) : p < s.length := by
  induction s generalizing p with
  | nil => simp [find] at h
  | cons x xs ih =>
    simp only [find] at h
    split at h
    · cases h; simp
    · cases hf : find xs c with
      | none => simp [hf] at h
      | some q =>
        simp [hf] at h
        have := ih q hf
        subst h
        simp; omega

/-- The call `substr(0, n)` never throws. -/
theorem substr_zero (s : string) (n : Nat) : substr s 0 (some n) = Except.ok (s.take n) := by
  simp [substr]

/-- The call `substr(pos, n)` does not throw when `pos ≤ size()`. -/
theorem substr_le (s : string) (pos : Nat) (n : Nat) (h : pos ≤ s.length) :
    substr s pos (some n) = Except.ok ((s.drop pos).take n) := by
  have : ¬ pos > s.length := by omega
  simp [substr, this]

/-- The call `substr(pos)` throws exactly when `pos > size()`. -/
theorem substr_from (s : string) (pos : Nat) :
    substr s pos none = if pos > s.length then Except.error parse_failure.out_of_range
      else Except.ok (s.drop pos) := by
  unfold substr
  split <;> rfl

/-- Inversion of `pub_parse_base58`: it returns a point exactly when every check on
its way passed. -/
theorem pub_parse_base58_ok_iff {G1 : Type} (ser : string → Option bytes48)
    (fromC : bytes48 → Option G1) (s : string) (g : G1) :
    pub_parse_base58 ser fromC s = Except.ok g ↔
      ∃ pivot bytes, find s '_' = some pivot ∧ s.take 3 = config.bls_public_key_base_prefix ∧
        (s.drop (pivot + 1)).take 3 = config.bls_public_key_prefix ∧ 8 ≤ s.length ∧
        ser (s.drop 8) = some bytes ∧ fromC bytes = some g := by
  unfold pub_parse_base58
  cases hf : find s '_' with
  | none => simp
  | some pivot =>
    have hp := find_lt s '_' pivot hf
    simp only [substr_zero, substr_le s (pivot + 1) 3 (by omega), substr_from]
    by_cases h1 : config.bls_public_key_base_prefix = s.take 3
    · by_cases h2 : config.bls_public_key_prefix = (s.drop (pivot + 1)).take 3
      · by_cases h3 : 8 > s.length
        · simp only [← h1, ← h2, h3, ne_eq, not_true_eq_false, if_false, if_true]
          constructor
          · intro h; cases h
          · rintro ⟨_, _, _, _, _, h8, _⟩; omega
        · have h8 : 8 ≤ s.length := by omega
          simp only [← h1, ← h2, h3, ne_eq, not_true_eq_false, if_false]
          cases hs : ser (s.drop 8) with
          | none => simp
          | some bytes =>
            cases hc : fromC bytes with
            | none => simp [hc]
            | some g1 => simp [hc, h8, ← h2]
      · simp only [← h1, ne_eq, not_true_eq_false, if_false, h2, not_false_eq_true, if_true]
        constructor
        · intro h; cases h
        · rintro ⟨_, _, hq, _, h, _⟩
          cases hq
          exact absurd h.symm h2
    · simp only [ne_eq, h1, not_false_eq_true, if_true]
      constructor
      · intro h; cases h
      · rintro ⟨_, _, _, h, _⟩
        exact absurd h.symm h1

/-- The text `to_string` produces, character by character. -/
theorem to_string_eq {G1 : Type} (compress : G1 → bytes48) (deser : bytes48 → string)
    (k : bls_public_key G1) :
    bls_public_key.to_string compress deser k
      = 'P' :: 'U' :: 'B' :: '_' :: 'B' :: 'L' :: 'S' :: '_' :: deser (compress k._pkey) := by
  simp [bls_public_key.to_string, config.bls_public_key_base_prefix,
    config.bls_public_key_prefix]

/-- The parser never looks at the character at index 7: a text that begins
`PUB_BLS`, has any character `c` next and then `t`, is handed to the collaborators
as `t`. -/
theorem pub_parse_base58_skips_index_seven {G1 : Type} (ser : string → Option bytes48)
    (fromC : bytes48 → Option G1) (c : Char) (t : string) :
    pub_parse_base58 ser fromC ('P' :: 'U' :: 'B' :: '_' :: 'B' :: 'L' :: 'S' :: c :: t)
      = match ser t with
        | none => Except.error parse_failure.base58_rejected
        | some bytes =>
          match fromC bytes with
          | none => Except.error parse_failure.g1_rejected
          | some g1 => Except.ok g1 := by
  have h4 : ¬ (t.length + 1 + 1 + 1 + 1 + 1 + 1 + 1 + 1 < 4) := by omega
  have h8 : ¬ (t.length + 1 + 1 + 1 + 1 + 1 + 1 + 1 + 1 < 8) := by omega
  simp [pub_parse_base58, find, substr, config.bls_public_key_base_prefix,
    config.bls_public_key_prefix, h4, h8]

namespace sample

set_option maxRecDepth 100000 in
/-- The sample decoding of a character undoes its encoding. -/
theorem decode_encode_char : ∀ x : Fin 256, decode_char (encode_char x) = some x := by
  decide

/-- The sample decoding of a text undoes its encoding. -/
theorem decode_map_encode (l : List (Fin 256)) : decode (l.map encode_char) = some l := by
  induction l with
  | nil => rfl
  | cons x xs ih => simp [decode, decode_encode_char, ih]

/-- The sample `serialize_base58` inverts the sample `deserialize_base58`. -/
theorem serialize_deserialize (b : bytes48) : serialize_base58 (deserialize_base58 b) = some b := by
  obtain ⟨l, hl⟩ := b
  simp [serialize_base58, deserialize_base58, decode_map_encode, hl]

end sample

/-- Claim C1 (round trip): when `serialize_base58` inverts `deserialize_base58` on every
48-byte array and `fromCompressedBytesBE` inverts `toCompressedBytesBE`, then for
every key `v` the constructor from text, applied to `to_string v`, succeeds with
`v`, and `from_variant` applied to `to_variant v` succeeds with `v`; nothing is
assumed about the characters of the base58 text. -/
theorem C1_round_trip {G1 : Type}
    (serialize_base58 : string → Option bytes48) (deserialize_base58 : bytes48 → string)
    (toCompressedBytesBE : G1 → bytes48) (fromCompressedBytesBE : bytes48 → Option G1)
    (h58 : ∀ b : bytes48, serialize_base58 (deserialize_base58 b) = some b)
    (hg1 : ∀ v : G1, fromCompressedBytesBE (toCompressedBytesBE v) = some v)
    (v : bls_public_key G1) :
    bls_public_key.from_string serialize_base58 fromCompressedBytesBE
        (bls_public_key.to_string toCompressedBytesBE deserialize_base58 v) = Except.ok v
      ∧ from_variant serialize_base58 fromCompressedBytesBE
        (to_variant toCompressedBytesBE deserialize_base58 v) = Except.ok v := by
  have key : bls_public_key.from_string serialize_base58 fromCompressedBytesBE
      (bls_public_key.to_string toCompressedBytesBE deserialize_base58 v) = Except.ok v := by
    rw [to_string_eq, bls_public_key.from_string, pub_parse_base58_skips_index_seven, h58]
    simp only [hg1]
  exact ⟨key, by simpa [from_variant, to_variant, variant.as_string] using key⟩

/-- Witness of C1 on the sample collaborators and the all-zero array. -/
theorem C1_round_trip_witness :
    bls_public_key.from_string sample.serialize_base58 sample.fromCompressedBytesBE
        (bls_public_key.to_string sample.toCompressedBytesBE sample.deserialize_base58
          ⟨sample.zero48⟩) = Except.ok ⟨sample.zero48⟩
      ∧ from_variant sample.serialize_base58 sample.fromCompressedBytesBE
        (to_variant sample.toCompressedBytesBE sample.deserialize_base58 ⟨sample.zero48⟩)
          = Except.ok ⟨sample.zero48⟩ :=
  C1_round_trip sample.serialize_base58 sample.deserialize_base58 sample.toCompressedBytesBE
    sample.fromCompressedBytesBE sample.serialize_deserialize (fun _ => rfl) ⟨sample.zero48⟩

/-- Claim C5: `to_string k` is `"PUB" ++ "_" ++ "BLS" ++ "_" ++ t` with `t` the base58
text of the compressed form of `k`; so it begins with `PUB_BLS_`, its first
delimiter is at index 3, the next one at index 7 (index 3 of the text from
index 4 on), and it differs from the untagged text `t`, which holds no prefix. -/
theorem C5_to_string_form {G1 : Type}
    (toCompressedBytesBE : G1 → bytes48) (deserialize_base58 : bytes48 → string)
    (k : bls_public_key G1) :
    bls_public_key.to_string toCompressedBytesBE deserialize_base58 k
        = "PUB".toList ++ "_".toList ++ "BLS".toList ++ "_".toList
            ++ deserialize_base58 (toCompressedBytesBE k._pkey)
      ∧ (bls_public_key.to_string toCompressedBytesBE deserialize_base58 k).take 8
          = "PUB_BLS_".toList
      ∧ find (bls_public_key.to_string toCompressedBytesBE deserialize_base58 k) '_' = some 3
      ∧ find ((bls_public_key.to_string toCompressedBytesBE deserialize_base58 k).drop 4) '_'
          = some 3
      ∧ bls_public_key.to_string toCompressedBytesBE deserialize_base58 k
          ≠ deserialize_base58 (toCompressedBytesBE k._pkey) := by
  rw [to_string_eq]
  refine ⟨rfl, rfl, rfl, rfl, ?_⟩
  intro h
  have := congrArg List.length h
  simp only [List.length_cons] at this
  omega

/-- Claim C4: when the remainder `substr(8)` of a text passes `serialize_base58` with
bytes for which `fromCompressedBytesBE` has no value, decoding the text fails;
and whenever decoding succeeds with a key, that key is the value
`fromCompressedBytesBE` gave for the bytes `serialize_base58` recovered from
`substr(8)`. -/
theorem C4_invalid_point_rejected {G1 : Type}
    (serialize_base58 : string → Option bytes48) (fromCompressedBytesBE : bytes48 → Option G1)
    (text : string) :
    (∀ data_str bytes, substr text 8 none = Except.ok data_str →
        serialize_base58 data_str = some bytes → fromCompressedBytesBE bytes = none →
        ∃ e, pub_parse_base58 serialize_base58 fromCompressedBytesBE text = Except.error e
          ∧ bls_public_key.from_string serialize_base58 fromCompressedBytesBE text
              = Except.error e)
      ∧ (∀ k, bls_public_key.from_string serialize_base58 fromCompressedBytesBE text
            = Except.ok k →
          ∃ data_str bytes, substr text 8 none = Except.ok data_str ∧
            serialize_base58 data_str = some bytes ∧
            fromCompressedBytesBE bytes = some k._pkey) := by
  constructor
  · intro data_str bytes hd hb hnone
    cases hp : pub_parse_base58 serialize_base58 fromCompressedBytesBE text with
    | error e => exact ⟨e, rfl, by simp [bls_public_key.from_string, hp]⟩
    | ok g =>
      obtain ⟨_, bytes2, _, _, _, h8, hs, hc⟩ := (pub_parse_base58_ok_iff _ _ _ _).1 hp
      have h8n : ¬ 8 > text.length := by omega
      rw [substr_from, if_neg h8n] at hd
      cases hd
      rw [hb] at hs
      cases hs
      rw [hnone] at hc
      cases hc
  · intro k hk
    cases hp : pub_parse_base58 serialize_base58 fromCompressedBytesBE text with
    | error e => simp [bls_public_key.from_string, hp] at hk
    | ok g =>
      simp only [bls_public_key.from_string, hp] at hk
      cases hk
      obtain ⟨_, bytes, _, _, _, h8, hs, hc⟩ := (pub_parse_base58_ok_iff _ _ _ _).1 hp
      have h8n : ¬ 8 > text.length := by omega
      exact ⟨text.drop 8, bytes, by rw [substr_from, if_neg h8n], hs, hc⟩

/-- Witness of C4: with a point decoder that rejects everything, the text
`PUB_BLS_` followed by the sample text of the zero array fails to decode. -/
theorem C4_invalid_point_rejected_witness :
    ∃ e, pub_parse_base58 sample.serialize_base58 (fun _ => (none : Option Unit))
          ("PUB_BLS_".toList ++ sample.deserialize_base58 sample.zero48) = Except.error e
      ∧ bls_public_key.from_string sample.serialize_base58 (fun _ => (none : Option Unit))
          ("PUB_BLS_".toList ++ sample.deserialize_base58 sample.zero48) = Except.error e :=
  (C4_invalid_point_rejected sample.serialize_base58 (fun _ => (none : Option Unit))
    ("PUB_BLS_".toList ++ sample.deserialize_base58 sample.zero48)).1
    (sample.deserialize_base58 sample.zero48) sample.zero48 rfl
    (sample.serialize_deserialize sample.zero48) rfl

/-- On a string without the character, `find` returns `npos`. -/
theorem find_none_of_not_mem (s : string) (c : Char) (h : c ∉ s) : find s c = none := by
  induction s with
  | nil => rfl
  | cons x xs ih =>
    simp only [List.mem_cons, not_or] at h
    have hx : ¬ x = c := fun e => h.1 e.symm
    simp [find, hx, ih h.2]

/-- A text without a delimiter cannot be cut at one. -/
theorem split_delimiter_none (s : string) (h : '_' ∉ s) : split_delimiter s = none := by
  induction s with
  | nil => rfl
  | cons x xs ih =>
    simp only [List.mem_cons, not_or] at h
    have hx : ¬ x = '_' := fun e => h.1 e.symm
    simp [split_delimiter, hx, ih h.2]

/-- A string of at least eight characters, spelled out. -/
theorem exists_eight (s : string) (h : 8 ≤ s.length) :
    ∃ c0 c1 c2 c3 c4 c5 c6 c7 data, s = c0 :: c1 :: c2 :: c3 :: c4 :: c5 :: c6 :: c7 :: data := by
  match s, h with
  | c0 :: c1 :: c2 :: c3 :: c4 :: c5 :: c6 :: c7 :: data, _ =>
    exact ⟨c0, c1, c2, c3, c4, c5, c6, c7, data, rfl⟩

/-- When base58 decoding rejects the delimiter, a text that decodes and has two
delimiters splits into `PUB`, `BLS` and the data. -/
theorem split_of_parse_ok {G1 : Type} (ser : string → Option bytes48)
    (fromC : bytes48 → Option G1) (h58 : ∀ s, '_' ∈ s → ser s = none)
    (text base_prefix type_tag remainder : string) (g : G1)
    (hok : pub_parse_base58 ser fromC text = Except.ok g)
    (hsplit : split_first_two text = some ( base_prefix, type_tag, remainder)) :
    base_prefix = ['P', 'U', 'B'] ∧ type_tag = ['B', 'L', 'S'] := by
  obtain ⟨pivot, bytes, hf, ht, hp, h8, hs, hc⟩ := (pub_parse_base58_ok_iff _ _ _ _).1 hok
  have hd : '_' ∉ text.drop 8 := fun hmem => by rw [h58 _ hmem] at hs; cases hs
  obtain ⟨c0, c1, c2, c3, c4, c5, c6, c7, data, rfl⟩ := exists_eight text h8
  simp only [List.drop_succ_cons, List.drop_zero] at hd
  have hsd := split_delimiter_none data hd
  simp [config.bls_public_key_base_prefix] at ht
  obtain ⟨rfl, rfl, rfl⟩ := ht
  by_cases h3 : c3 = '_'
  · subst h3
    simp [find] at hf
    subst hf
    simp [config.bls_public_key_prefix] at hp
    obtain ⟨rfl, rfl, rfl⟩ := hp
    by_cases h7 : c7 = '_'
    · subst h7
      simp [split_first_two, split_delimiter] at hsplit
      exact ⟨hsplit.1.symm, hsplit.2.1.symm⟩
    · simp [split_first_two, split_delimiter, h7, hsd] at hsplit
  · by_cases h4 : c4 = '_'
    · subst h4
      simp [find, h3] at hf
      subst hf
      simp [config.bls_public_key_prefix] at hp
      obtain ⟨rfl, rfl, rfl⟩ := hp
      simp [split_first_two, split_delimiter, h3, hsd] at hsplit
    · by_cases h5 : c5 = '_'
      · subst h5
        simp [find, h3, h4] at hf
        subst hf
        simp [config.bls_public_key_prefix] at hp
        obtain ⟨rfl, rfl, _⟩ := hp
        simp [split_first_two, split_delimiter, h3, h4, hsd] at hsplit
      · by_cases h6 : c6 = '_'
        · subst h6
          simp [find, h3, h4, h5] at hf
          subst hf
          simp [config.bls_public_key_prefix] at hp
          obtain ⟨rfl, _⟩ := hp
          simp [split_first_two, split_delimiter, h3, h4, h5, hsd] at hsplit
        · by_cases h7 : c7 = '_'
          · subst h7
            simp [split_first_two, split_delimiter, h3, h4, h5, h6, hsd] at hsplit
          · simp [split_first_two, split_delimiter, h3, h4, h5, h6, h7, hsd] at hsplit

/-- A different character at index 0, 1 or 2 of an encoder output fails the
base-prefix check. -/
theorem parse_role_segment_changed {G1 : Type} (ser : string → Option bytes48)
    (fromC : bytes48 → Option G1) (t : string) (i : Nat) (c : Char) (hi : i < 3)
    (hc : ('P' :: 'U' :: 'B' :: '_' :: 'B' :: 'L' :: 'S' :: '_' :: t)[i]? ≠ some c) :
    pub_parse_base58 ser fromC
        (('P' :: 'U' :: 'B' :: '_' :: 'B' :: 'L' :: 'S' :: '_' :: t).set i c)
      = Except.error parse_failure.base_prefix_mismatch := by
  have h4 : ¬ (t.length + 1 + 1 + 1 + 1 + 1 + 1 + 1 + 1 < 4) := by omega
  interval_cases i
  · have hc2 : ¬ 'P' = c := by simpa using hc
    by_cases hu : c = '_' <;>
      simp [pub_parse_base58, find, substr, config.bls_public_key_base_prefix, hc2, hu]
  · have hc2 : ¬ 'U' = c := by simpa using hc
    by_cases hu : c = '_' <;>
      simp [pub_parse_base58, find, substr, config.bls_public_key_base_prefix, hc2, hu]
  · have hc2 : ¬ 'B' = c := by simpa using hc
    by_cases hu : c = '_' <;>
      simp [pub_parse_base58, find, substr, config.bls_public_key_base_prefix, hc2, hu]

/-- A different character at index 4, 5 or 6 of an encoder output fails the
type-prefix check. -/
theorem parse_type_segment_changed {G1 : Type} (ser : string → Option bytes48)
    (fromC : bytes48 → Option G1) (t : string) (i : Nat) (c : Char) (h4i : 4 ≤ i) (hi : i < 7)
    (hc : ('P' :: 'U' :: 'B' :: '_' :: 'B' :: 'L' :: 'S' :: '_' :: t)[i]? ≠ some c) :
    pub_parse_base58 ser fromC
        (('P' :: 'U' :: 'B' :: '_' :: 'B' :: 'L' :: 'S' :: '_' :: t).set i c)
      = Except.error parse_failure.type_prefix_mismatch := by
  have h4 : ¬ (t.length + 1 + 1 + 1 + 1 + 1 + 1 + 1 + 1 < 4) := by omega
  interval_cases i
  · have hc2 : ¬ 'B' = c := by simpa using hc
    simp [pub_parse_base58, find, substr, config.bls_public_key_base_prefix,
      config.bls_public_key_prefix, hc2, h4]
  · have hc2 : ¬ 'L' = c := by simpa using hc
    simp [pub_parse_base58, find, substr, config.bls_public_key_base_prefix,
      config.bls_public_key_prefix, hc2, h4]
  · have hc2 : ¬ 'S' = c := by simpa using hc
    simp [pub_parse_base58, find, substr, config.bls_public_key_base_prefix,
      config.bls_public_key_prefix, hc2, h4]

namespace sample

/-- The sample `serialize_base58` rejects every text that holds a delimiter. -/
theorem serialize_rejects_delimiter (s : string) (h : '_' ∈ s) : serialize_base58 s = none := by
  have hd : decode s = none := by
    induction s with
    | nil => simp at h
    | cons x xs ih =>
      rcases List.mem_cons.1 h with rfl | hmem
      · have : decode_char '_' = none := by decide
        simp [decode, this]
      · simp only [decode, ih hmem]
        cases decode_char x <;> rfl
  simp [serialize_base58, hd]

end sample

/-- What `split_delimiter` returns: the delimiter-free part before the first
delimiter, and the part after it. -/
theorem split_delimiter_some_iff (s a r : string) :
    split_delimiter s = some (a, r) ↔ s = a ++ '_' :: r ∧ '_' ∉ a := by
  induction s generalizing a with
  | nil => simp [split_delimiter]
  | cons x xs ih =>
    by_cases hx : x = '_'
    · subst hx
      simp only [split_delimiter, if_true, Option.some.injEq, Prod.mk.injEq]
      constructor
      · rintro ⟨rfl, rfl⟩; simp
      · rintro ⟨h, hn⟩
        cases a with
        | nil => simp at h; exact ⟨rfl, h⟩
        | cons y ys =>
          simp at h
          exact absurd (List.mem_cons.2 (Or.inl h.1)) hn
    · simp only [split_delimiter, hx, if_false]
      constructor
      · intro h
        cases hs : split_delimiter xs with
        | none => rw [hs] at h; cases h
        | some p =>
          obtain ⟨p1, p2⟩ := p
          rw [hs] at h
          simp only [Option.map_some', Option.some.injEq, Prod.mk.injEq] at h
          obtain ⟨rfl, rfl⟩ := h
          obtain ⟨h1, h2⟩ := (ih p1).1 hs
          refine ⟨by rw [h1]; rfl, ?_⟩
          intro hmem
          rcases List.mem_cons.1 hmem with e | e
          · exact hx e.symm
          · exact h2 e
      · rintro ⟨h, hn⟩
        cases a with
        | nil =>
          simp only [List.nil_append, List.cons.injEq] at h
          exact absurd h.1 hx
        | cons y ys =>
          simp only [List.cons_append, List.cons.injEq] at h
          obtain ⟨rfl, h1⟩ := h
          have hn2 : '_' ∉ ys := fun e => hn (List.mem_cons.2 (Or.inr e))
          rw [(ih ys).2 ⟨h1, hn2⟩]
          rfl

/-- What `split_first_two` returns: the text is `a_b_c` with no delimiter in `a`
or `b`. -/
theorem split_first_two_some_iff (s a b c : string) :
    split_first_two s = some (a, b, c) ↔
      s = a ++ '_' :: (b ++ '_' :: c) ∧ '_' ∉ a ∧ '_' ∉ b := by
  unfold split_first_two
  constructor
  · intro h
    cases h1 : split_delimiter s with
    | none => rw [h1] at h; cases h
    | some p =>
      obtain ⟨p1, rest⟩ := p
      rw [h1] at h
      simp only at h
      cases h2 : split_delimiter rest with
      | none => rw [h2] at h; cases h
      | some q =>
        obtain ⟨q1, q2⟩ := q
        rw [h2] at h
        simp only [Option.some.injEq, Prod.mk.injEq] at h
        obtain ⟨rfl, rfl, rfl⟩ := h
        obtain ⟨e1, n1⟩ := (split_delimiter_some_iff _ _ _).1 h1
        obtain ⟨e2, n2⟩ := (split_delimiter_some_iff _ _ _).1 h2
        exact ⟨by rw [e1, e2], n1, n2⟩
  · rintro ⟨e, n1, n2⟩
    have h1 : split_delimiter s = some (a, b ++ '_' :: c) :=
      (split_delimiter_some_iff _ _ _).2 ⟨e, n1⟩
    have h2 : split_delimiter (b ++ '_' :: c) = some (b, c) :=
      (split_delimiter_some_iff _ _ _).2 ⟨rfl, n2⟩
    simp only [h1, h2]

/-- Claim C2: take a text with at least two delimiters, split at the first two into
`base_prefix`, `type_tag` and `remainder` (the text is
`base_prefix ++ "_" ++ type_tag ++ "_" ++ remainder` with no delimiter inside
`base_prefix` or `type_tag`).  If `serialize_base58` rejects every text that
holds a delimiter, and `base_prefix` is not `PUB` or `type_tag` is not `BLS`,
decoding fails.  And whatever the collaborators do, replacing one character of
the `PUB` segment (index 0 to 2) or of the `BLS` segment (index 4 to 6) of an
encoder output by a different one makes decoding fail, at the base-prefix or
the type-prefix check. -/
theorem C2_wrong_segments_rejected {G1 : Type}
    (serialize_base58 : string → Option bytes48) (fromCompressedBytesBE : bytes48 → Option G1) :
    (∀ text base_prefix type_tag remainder : string,
        (∀ s, '_' ∈ s → serialize_base58 s = none) →
        text = base_prefix ++ '_' :: (type_tag ++ '_' :: remainder) →
        '_' ∉ base_prefix → '_' ∉ type_tag →
        ( base_prefix ≠ "PUB".toList ∨ type_tag ≠ "BLS".toList) →
        ∃ e, pub_parse_base58 serialize_base58 fromCompressedBytesBE text = Except.error e)
      ∧ (∀ (toCompressedBytesBE : G1 → bytes48) (deserialize_base58 : bytes48 → string)
          (k : bls_public_key G1) (i : Nat) (c : Char),
          (i < 3 ∨ (4 ≤ i ∧ i < 7)) →
          (bls_public_key.to_string toCompressedBytesBE deserialize_base58 k)[i]? ≠ some c →
          ∃ e, pub_parse_base58 serialize_base58 fromCompressedBytesBE
                ((bls_public_key.to_string toCompressedBytesBE deserialize_base58 k).set i c)
                = Except.error e
            ∧ (e = parse_failure.base_prefix_mismatch
                ∨ e = parse_failure.type_prefix_mismatch)) := by
  constructor
  · intro text base_prefix type_tag remainder h58 htext hn1 hn2 hbad
    have hsplit : split_first_two text = some ( base_prefix, type_tag, remainder) :=
      (split_first_two_some_iff _ _ _ _).2 ⟨htext, hn1, hn2⟩
    cases hp : pub_parse_base58 serialize_base58 fromCompressedBytesBE text with
    | error e => exact ⟨e, rfl⟩
    | ok g =>
      obtain ⟨h1, h2⟩ := split_of_parse_ok _ _ h58 _ _ _ _ g hp hsplit
      rcases hbad with hb | hb
      · exact absurd h1 hb
      · exact absurd h2 hb
  · intro toC deser k i c hi hc
    rw [to_string_eq] at hc ⊢
    rcases hi with hi | ⟨h4, h7⟩
    · exact ⟨_, parse_role_segment_changed _ _ _ i c hi hc, Or.inl rfl⟩
    · exact ⟨_, parse_type_segment_changed _ _ _ i c h4 h7 hc, Or.inr rfl⟩

/-- Witness of C2: on the sample collaborators, the text `PUB_K1_x` (type tag `K1`)
fails to decode, and so does the encoding of the zero key with its `P` replaced
by `Q`. -/
theorem C2_wrong_segments_rejected_witness :
    (∃ e, pub_parse_base58 sample.serialize_base58 sample.fromCompressedBytesBE
        "PUB_K1_x".toList = Except.error e)
      ∧ (∃ e, pub_parse_base58 sample.serialize_base58 sample.fromCompressedBytesBE
            ((bls_public_key.to_string sample.toCompressedBytesBE sample.deserialize_base58
              ⟨sample.zero48⟩).set 0 'Q') = Except.error e
          ∧ (e = parse_failure.base_prefix_mismatch
              ∨ e = parse_failure.type_prefix_mismatch)) :=
  ⟨(C2_wrong_segments_rejected sample.serialize_base58 sample.fromCompressedBytesBE).1
      "PUB_K1_x".toList "PUB".toList "K1".toList "x".toList
      sample.serialize_rejects_delimiter rfl (by decide) (by decide) (Or.inr (by decide)),
    (C2_wrong_segments_rejected sample.serialize_base58 sample.fromCompressedBytesBE).2
      sample.toCompressedBytesBE sample.deserialize_base58 ⟨sample.zero48⟩ 0 'Q'
      (Or.inl (by decide)) (by decide)⟩

/-- Claim C3, on the code: a text that begins `PUB_BLS`, continues with any character
other than the delimiter and then with a delimiter-free text `t` that the
collaborators accept, holds exactly one delimiter and still decodes to the key
of `t`. -/
theorem C3_single_delimiter_text_decodes {G1 : Type}
    (serialize_base58 : string → Option bytes48) (fromCompressedBytesBE : bytes48 → Option G1)
    (c : Char) (t : string) (bytes : bytes48) (g1 : G1)
    (hc : c ≠ '_') (ht : '_' ∉ t)
    (hs : serialize_base58 t = some bytes) (hg : fromCompressedBytesBE bytes = some g1) :
    List.count '_' ("PUB_BLS".toList ++ c :: t) = 1
      ∧ pub_parse_base58 serialize_base58 fromCompressedBytesBE ("PUB_BLS".toList ++ c :: t)
          = Except.ok g1 := by
  constructor
  · have h0 : List.count '_' t = 0 := List.count_eq_zero.2 ht
    have hc2 : ¬ (c == '_') = true := by simpa using hc
    show List.count '_' ('P' :: 'U' :: 'B' :: '_' :: 'B' :: 'L' :: 'S' :: c :: t) = 1
    simp [List.count_cons, h0, hc2]
  · show pub_parse_base58 serialize_base58 fromCompressedBytesBE
      ('P' :: 'U' :: 'B' :: '_' :: 'B' :: 'L' :: 'S' :: c :: t) = Except.ok g1
    rw [pub_parse_base58_skips_index_seven, hs]
    simp only [hg]

/-- Witness of C3's theorem: on the sample collaborators, `PUB_BLSx` followed by
the text of the zero key has one delimiter and decodes to the zero key. -/
theorem C3_single_delimiter_text_decodes_witness :
    List.count '_' ("PUB_BLS".toList ++ 'x' :: sample.deserialize_base58 sample.zero48) = 1
      ∧ pub_parse_base58 sample.serialize_base58 sample.fromCompressedBytesBE
          ("PUB_BLS".toList ++ 'x' :: sample.deserialize_base58 sample.zero48)
          = Except.ok sample.zero48 :=
  C3_single_delimiter_text_decodes sample.serialize_base58 sample.fromCompressedBytesBE
    'x' (sample.deserialize_base58 sample.zero48) sample.zero48 sample.zero48
    (by decide) (by decide) (sample.serialize_deserialize sample.zero48) rfl

/-- Claim C6: whatever the two collaborators are, decoding
`PUB_K1_invalidtaghaschecksumerror` fails, and the failure is the one raised by
the type-prefix check of line 18, a structural check that runs before
`serialize_base58` and `fromCompressedBytesBE` are called; it is not the
failure of the point check, and the outcome is the same for every other
point-decompression collaborator. -/
theorem C6_fails_before_decompression {G1 : Type}
    (serialize_base58 : string → Option bytes48) (fromCompressedBytesBE : bytes48 → Option G1) :
    pub_parse_base58 serialize_base58 fromCompressedBytesBE
        "PUB_K1_invalidtaghaschecksumerror".toList
        = Except.error parse_failure.type_prefix_mismatch
      ∧ bls_public_key.from_string serialize_base58 fromCompressedBytesBE
        "PUB_K1_invalidtaghaschecksumerror".toList
        = Except.error parse_failure.type_prefix_mismatch
      ∧ pub_parse_base58 serialize_base58 fromCompressedBytesBE
        "PUB_K1_invalidtaghaschecksumerror".toList
        ≠ Except.error parse_failure.g1_rejected
      ∧ (∀ other : bytes48 → Option G1,
          pub_parse_base58 serialize_base58 other "PUB_K1_invalidtaghaschecksumerror".toList
            = pub_parse_base58 serialize_base58 fromCompressedBytesBE
                "PUB_K1_invalidtaghaschecksumerror".toList) := by
  have h : ∀ f : bytes48 → Option G1,
      pub_parse_base58 serialize_base58 f "PUB_K1_invalidtaghaschecksumerror".toList
        = Except.error parse_failure.type_prefix_mismatch := fun _ => rfl
  refine ⟨h _, rfl, ?_, fun other => by rw [h other, h fromCompressedBytesBE]⟩
  rw [h]
  intro hc
  cases hc

/-- Claim C7 as stated fails: on the sample collaborators the untagged text of the
zero key holds no delimiter, its bytes and its point are accepted, and yet
decoding it fails at the delimiter check instead of giving the key. -/
theorem C7_legacy_counterexample :
    '_' ∉ sample.deserialize_base58 (sample.toCompressedBytesBE sample.zero48)
      ∧ sample.serialize_base58
          (sample.deserialize_base58 (sample.toCompressedBytesBE sample.zero48))
          = some sample.zero48
      ∧ sample.fromCompressedBytesBE sample.zero48 = some sample.zero48
      ∧ bls_public_key.from_string sample.serialize_base58 sample.fromCompressedBytesBE
          (sample.deserialize_base58 (sample.toCompressedBytesBE sample.zero48))
          ≠ Except.ok ⟨sample.zero48⟩ := by
  refine ⟨by decide, sample.serialize_deserialize sample.zero48, rfl, ?_⟩
  have h : bls_public_key.from_string sample.serialize_base58 sample.fromCompressedBytesBE
      (sample.deserialize_base58 (sample.toCompressedBytesBE sample.zero48))
        = Except.error parse_failure.no_delimiter := rfl
  rw [h]
  intro h2
  cases h2

/-- Claim C7, amended: a text without a delimiter is never decoded; whatever the
collaborators are, `pub_parse_base58` and the constructor from text fail on it
at the delimiter check. -/
theorem C7_no_delimiter_rejected {G1 : Type}
    (serialize_base58 : string → Option bytes48) (fromCompressedBytesBE : bytes48 → Option G1)
    (text : string) (h : '_' ∉ text) :
    pub_parse_base58 serialize_base58 fromCompressedBytesBE text
        = Except.error parse_failure.no_delimiter
      ∧ bls_public_key.from_string serialize_base58 fromCompressedBytesBE text
        = Except.error parse_failure.no_delimiter := by
  have hp : pub_parse_base58 serialize_base58 fromCompressedBytesBE text
      = Except.error parse_failure.no_delimiter := by
    simp [pub_parse_base58, find_none_of_not_mem text '_' h]
  exact ⟨hp, by simp [bls_public_key.from_string, hp]⟩

/-- Witness of amended C7 on the untagged sample text of the zero key. -/
theorem C7_no_delimiter_rejected_witness :
    pub_parse_base58 sample.serialize_base58 sample.fromCompressedBytesBE
        (sample.deserialize_base58 sample.zero48) = Except.error parse_failure.no_delimiter
      ∧ bls_public_key.from_string sample.serialize_base58 sample.fromCompressedBytesBE
        (sample.deserialize_base58 sample.zero48) = Except.error parse_failure.no_delimiter :=
  C7_no_delimiter_rejected sample.serialize_base58 sample.fromCompressedBytesBE
    (sample.deserialize_base58 sample.zero48) (by decide)

/-- Claim C8, on the code: the seven-character text `PUB_BLS` passes the delimiter
check and both prefix checks, and then `substr(8)` is out of range: the decoder
leaves with `std::out_of_range`, whatever the collaborators are. -/
theorem C8_substr_out_of_range {G1 : Type}
    (serialize_base58 : string → Option bytes48) (fromCompressedBytesBE : bytes48 → Option G1) :
    "PUB_BLS".toList.length = 7
      ∧ find "PUB_BLS".toList '_' = some 3
      ∧ substr "PUB_BLS".toList 0 (some 3) = Except.ok config.bls_public_key_base_prefix
      ∧ substr "PUB_BLS".toList (3 + 1) (some 3) = Except.ok config.bls_public_key_prefix
      ∧ substr "PUB_BLS".toList 8 none = Except.error parse_failure.out_of_range
      ∧ pub_parse_base58 serialize_base58 fromCompressedBytesBE "PUB_BLS".toList
          = Except.error parse_failure.out_of_range :=
  ⟨rfl, rfl, rfl, rfl, rfl, rfl⟩

end fc

/-! ## Properties of the chain-state utility -/

namespace chain_actions

/-- What `run_subcommand_sstate` does when `std::filesystem::exists` returns: the
return code is 0 exactly when the file exists, the read succeeds, the header's
`id` is `header_id` and its `dirty` flag is clear; it is -1 otherwise; and it
is -1 whenever the header read has the dirty flag set. -/
theorem sstate_return_code_of_exists {path : Type} (fs : filesystem path)
    (default_state_dir_name : String) (header_size header_id : Nat)
    (as_db_header : List (Fin 256) → db_header) (opt : chain_options) (found : Bool)
    (hex : fs.file_exists (fs.append (get_state_dir fs default_state_dir_name opt)
        (fs.of_string "shared_memory.bin")) = Except.ok found) :
    (run_subcommand_sstate fs default_state_dir_name header_size header_id as_db_header opt
          = Except.ok 0 ↔
        found = true
          ∧ ∃ header, fs.read (fs.append (get_state_dir fs default_state_dir_name opt)
                (fs.of_string "shared_memory.bin")) header_size = some header
              ∧ (as_db_header header).id = header_id
              ∧ (as_db_header header).dirty = false)
      ∧ (run_subcommand_sstate fs default_state_dir_name header_size header_id as_db_header opt
            = Except.ok 0
          ∨ run_subcommand_sstate fs default_state_dir_name header_size header_id as_db_header opt
            = Except.ok (-1))
      ∧ (∀ header, fs.read (fs.append (get_state_dir fs default_state_dir_name opt)
              (fs.of_string "shared_memory.bin")) header_size = some header →
            (as_db_header header).dirty = true →
            run_subcommand_sstate fs default_state_dir_name header_size header_id as_db_header opt
              = Except.ok (-1)) := by
  cases found with
  | false => simp [run_subcommand_sstate, hex]
  | true =>
    cases hr : fs.read (fs.append (get_state_dir fs default_state_dir_name opt)
        (fs.of_string "shared_memory.bin")) header_size with
    | none => simp [run_subcommand_sstate, hex, hr]
    | some header =>
      by_cases hid : (as_db_header header).id = header_id
      · cases hd : (as_db_header header).dirty <;> simp [run_subcommand_sstate, hex, hr, hid, hd]
      · simp [run_subcommand_sstate, hex, hr, hid]

/-- Claim C10, on the code: when `shared_memory.bin` exists and `--blocks-dir` is not
empty, an exception thrown by the `public_key_type` constructor leaves
`run_subcommand_replace_producer_keys` instead of becoming the return code -1;
and so does one thrown by `initialize_protocol_features` when the key and
the temporary directory were made. -/
theorem C10_exception_escapes {path key chain_id pfs control : Type}
    (fs : filesystem path) (api : chain_api path key chain_id pfs control)
    (default_state_dir_name : String) (opt : chain_options) (e : thrown)
    (hex : fs.file_exists (fs.append (get_state_dir fs default_state_dir_name opt)
        (fs.of_string "shared_memory.bin")) = Except.ok true)
    (hb : opt.blocks_dir.isEmpty = false) :
    (api.public_key_type opt.producer_key = Except.error e →
        run_subcommand_replace_producer_keys fs api default_state_dir_name opt = Except.error e)
      ∧ (∀ k dir, api.public_key_type opt.producer_key = Except.ok k →
          api.temp_directory = Except.ok dir →
          api.initialize_protocol_features (fs.of_string "protocol_features") false
            = Except.error e →
          run_subcommand_replace_producer_keys fs api default_state_dir_name opt
            = Except.error e) := by
  unfold run_subcommand_replace_producer_keys
  constructor
  · intro hk
    simp [hex, hb, hk]
  · intro k dir hk hdir hp
    simp [hex, hb, hk, hdir, hp]

/-- Witness of C10's theorem: with the options `--blocks-dir blocks --key notakey`
and a key constructor that throws an `fc::exception`, the exception leaves the
function. -/
theorem C10_exception_escapes_witness :
    run_subcommand_replace_producer_keys sample.fs sample.api "state" sample.opt
      = Except.error thrown.fc_exception :=
  (C10_exception_escapes sample.fs sample.api "state" sample.opt thrown.fc_exception
    rfl (by decide)).1 rfl

end chain_actions
